import Mathlib

/-!
Verification development for the mining worker and chain/address code of the
go-filecoin excerpt.  The Go source is shallowly embedded: Go byte slices and
strings become `List Nat`, machine `uint64` arithmetic is `Nat` arithmetic
taken modulo `2 ^ 64` where the source can overflow, fallible Go calls become
`Except String`-valued results, and the effects of `Mine` (channel sends,
return value, panic) are collected into an explicit result value.  External
collaborators (state-tree accessor, challenge derivation, proof channel,
winner predicate, block assembler, signer, checksum, base32 codec, leb128)
are injected as explicit function-valued environment fields, mirroring how
the source receives them by dependency injection.
-/

/-- Stand-in for Go chain CIDs: an opaque numeric block identifier.  Content
addressing itself is an external collaborator of the code under study. -/
abbrev Cid := Nat

/-- Embedding of `types.Block` (the fields written by `MkFakeChildCore` and
carried by mining outputs).  `cid` stands for the block's content identifier,
which the mining code only passes around opaquely. -/
structure Block where
  cid : Cid
  parents : List Cid
  height : Nat
  parentWeightNum : Nat
  parentWeightDenom : Nat
  nonce : Nat
  stateRoot : Nat
deriving DecidableEq, Repr

/-- Embedding of `consensus.TipSet` as the list of its member blocks (the
source type is a cid-keyed map; the worker only uses emptiness, height and
the canonical first member). -/
abbrev TipSet := List Block

/-- Modulus of Go `uint64` arithmetic. -/
def uint64Mod : Nat := 2 ^ 64

/-- Embedding of `TipSet.Height()`: the shared height of the members, an
error on the empty tipset (the source reads it off one member; members agree
by the tipset invariant). -/
def tipsetHeight (ts : TipSet) : Except String Nat :=
  match ts with
  | [] => .error "no blocks in tipset"
  | b :: _ => .ok b.height

/-- Insertion step used to model the sortedness of `SortedCidSet`. -/
def insertSorted (x : Nat) : List Nat → List Nat
  | [] => [x]
  | y :: ys => if x ≤ y then x :: y :: ys else y :: insertSorted x ys

/-- Sorting used to model `SortedCidSet` ordering. -/
def sortCids (l : List Nat) : List Nat := l.foldr insertSorted []

/-- Embedding of `TipSet.ToSortedCidSet()`: the deduplicated, sorted set of
member block identifiers. -/
def toSortedCidSet (ts : TipSet) : List Cid :=
  sortCids ((ts.map Block.cid).eraseDups)

/-- Embedding of `address.Address`: the protocol byte followed by the payload
bytes, exactly as the Go type stores them in its backing string. -/
structure Address where
  str : List Nat
deriving DecidableEq, Repr

/-- Embedding of `address.Undef`, the undefined (empty) address. -/
def Undef : Address := ⟨[]⟩

/-- Embedding of `types.Signer.SignBytes`: signs bytes under an address,
or fails.  The signer is an external collaborator. -/
abbrev Signer := List Nat → Address → Except String (List Nat)

/-- Result of `CreateTicket`: a ticket, or a fatal process-level fault (the
source calls `panic` there, which never returns to the caller). -/
inductive TicketResult where
  | ok (ticket : List Nat)
  | fatal (msg : String)
deriving DecidableEq, Repr

/-- Embedding of `CreateTicket` (src/mining/worker.go).  The source copies
the proof bytes (`append(proof[:])`) into `buf`, aliases them as `h`, signs
exactly those bytes under the miner address, and panics if signing fails. -/
def CreateTicket (proof : List Nat) (minerAddr : Address) (signer : Signer) : TicketResult :=
  let buf := proof
  let h := buf
  match signer h minerAddr with
  | .error e => .fatal ("SignBytes error in CreateTicket: " ++ e)
  | .ok ticket => .ok ticket

/-- Embedding of `mining.Output`: either a new block or an error, mirroring
the Go struct's two pointer fields. -/
structure Output where
  newBlock : Option Block
  err : Option String
deriving DecidableEq, Repr

/-- Result of one `Mine` call: the returned bool together with the list of
Output values sent on `outCh` during the call, or a propagated panic (from
`CreateTicket`) together with the Outputs sent before the panic. -/
inductive MineResult where
  | ret (b : Bool) (outs : List Output)
  | panic (msg : String) (outs : List Output)
deriving DecidableEq, Repr

/-- Outputs sent on the output channel during the call. -/
def MineResult.outs : MineResult → List Output
  | .ret _ o => o
  | .panic _ o => o

/-- Resolution of the `select` in `Mine` over the cancellation signal and the
proof channel: the context was done first, the proof channel was closed, or
the proof channel delivered its value. -/
inductive SelectOutcome where
  | ctxDone
  | chanClosed
  | chanDelivered
deriving DecidableEq, Repr

/-- Environment of one `Mine` call: its inputs together with the behaviour of
the injected collaborators and the resolution of the run's nondeterminism.
`ctxErrAtCheck` is the value of `ctx.Err() != nil` at the explicit
cancellation checkpoint; a context already cancelled at entry has this true,
since Go contexts stay cancelled.  The proof channel, when it delivers,
delivers the challenge seed unchanged (`createProof` passes it through). -/
structure MineEnv where
  base : TipSet
  getStateTree : Except String Unit
  ctxErrAtCheck : Bool
  challenge : Except String (List Nat)
  selectOutcome : SelectOutcome
  minerAddr : Address
  signer : Signer
  isWinningTicket : List Nat → Except String Bool
  generate : List Nat → List Nat → Except String Block

/-- Embedding of `DefaultWorker.Mine` (src/mining/worker.go): the branch
structure of the source, line by line.  Channel sends are collected in order;
logging calls are effect-free and omitted. -/
def Mine (env : MineEnv) : MineResult :=
  if env.base.length = 0 then
    .ret false [⟨none, some "bad input tipset with no blocks sent to Mine()"⟩]
  else
    match env.getStateTree with
    | .error e => .ret false [⟨none, some e⟩]
    | .ok _ =>
      if env.ctxErrAtCheck then
        .ret false []
      else
        match env.challenge with
        | .error e => .ret false [⟨none, some e⟩]
        | .ok seed =>
          match env.selectOutcome with
          | .ctxDone => .ret false []
          | .chanClosed => .ret false []
          | .chanDelivered =>
            match CreateTicket seed env.minerAddr env.signer with
            | .fatal msg => .panic msg []
            | .ok ticket =>
              match env.isWinningTicket ticket with
              | .error e => .ret false [⟨none, some e⟩]
              | .ok true =>
                match env.generate ticket seed with
                | .ok next => .ret true [⟨some next, none⟩]
                | .error e => .ret true [⟨none, some e⟩]
              | .ok false => .ret false []

/-- Embedding of `MkFakeChildCore` (src/chain/testing.go): reads the weight
of the parent through `wFun`, computes `height = parent height + 1 + null
block count` in `uint64` arithmetic, and assembles the child block.  The
child's own content identifier is left at a placeholder since the source
computes it outside this excerpt. -/
def MkFakeChildCore (parent : TipSet) (genCid : Cid) (stateRoot : Option Nat)
    (nonce : Nat) (nullBlockCount : Nat)
    (wFun : TipSet → Except String (Nat × Nat)) : Except String Block :=
  match wFun parent with
  | .error e => .error e
  | .ok (nW, dW) =>
    match tipsetHeight parent with
    | .error e => .error e
    | .ok pHeight =>
      let height := (pHeight + 1 + nullBlockCount) % uint64Mod
      let sr : Nat :=
        match stateRoot with
        | some s => s
        | none =>
          match parent with
          | [] => 0
          | b :: _ => b.stateRoot
      .ok { cid := 0
            parents := toSortedCidSet parent
            height := height
            parentWeightNum := nW
            parentWeightDenom := dW
            nonce := nonce
            stateRoot := sr }

/-! ### Concrete environments used by the witnesses -/

/-- Signer that echoes the signed bytes as the signature. -/
def okSigner : Signer := fun bs _ => .ok bs

/-- Signer that always fails, as with a corrupted key. -/
def failSigner : Signer := fun _ _ => .error "corrupt key"

/-- A concrete block. -/
def blk0 : Block := ⟨1, [], 5, 3, 2, 0, 9⟩

/-- A concrete run that is cancelled at the explicit checkpoint. -/
def envCancel : MineEnv :=
  { base := [blk0]
    getStateTree := .ok ()
    ctxErrAtCheck := true
    challenge := .ok [1, 2]
    selectOutcome := .ctxDone
    minerAddr := ⟨[1, 7]⟩
    signer := okSigner
    isWinningTicket := fun _ => .ok false
    generate := fun _ _ => .ok blk0 }

/-- A concrete run cancelled while waiting on the proof channel. -/
def envSelectCancel : MineEnv := { envCancel with ctxErrAtCheck := false }

/-- A concrete run that loses the election. -/
def envNotWinner : MineEnv :=
  { envCancel with ctxErrAtCheck := false, selectOutcome := .chanDelivered }

/-- A concrete run that wins the election. -/
def envWinner : MineEnv :=
  { envNotWinner with isWinningTicket := fun _ => .ok true }

/-- A concrete run on an empty base tipset. -/
def envEmpty : MineEnv := { envCancel with base := ([] : TipSet) }

/-- A concrete run whose proof channel is closed without a value. -/
def envClosed : MineEnv := { envNotWinner with selectOutcome := .chanClosed }

/-- A concrete run whose context is cancelled at entry and whose state-tree
fetch fails (as a real accessor does under a cancelled context). -/
def envC3 : MineEnv := { envCancel with getStateTree := .error "context canceled" }

/-! ### Claims about Mine -/

/-- C1: every call to `Mine` sends at most one Output on the output channel,
and sends zero Outputs on the cancellation-before-proof paths (cancelled at
the explicit checkpoint, or cancelled while waiting on the proof channel)
and on the not-winner path. -/
theorem c1_mine_output_discipline (env : MineEnv) :
    (Mine env).outs.length ≤ 1
    ∧ (env.base ≠ [] → env.getStateTree = .ok () → env.ctxErrAtCheck = true →
        (Mine env).outs = [])
    ∧ (∀ seed, env.base ≠ [] → env.getStateTree = .ok () →
        env.ctxErrAtCheck = false → env.challenge = .ok seed →
        env.selectOutcome = .ctxDone → (Mine env).outs = [])
    ∧ (∀ seed ticket, env.base ≠ [] → env.getStateTree = .ok () →
        env.ctxErrAtCheck = false → env.challenge = .ok seed →
        env.selectOutcome = .chanDelivered →
        CreateTicket seed env.minerAddr env.signer = .ok ticket →
        env.isWinningTicket ticket = .ok false → (Mine env).outs = []) := by
  refine ⟨?_, ?_, ?_, ?_⟩
  · suffices key : ∀ r : MineResult, Mine env = r → r.outs.length ≤ 1 from
      key (Mine env) rfl
    intro r hr
    unfold Mine at hr
    repeat' split at hr
    all_goals (subst hr; simp [MineResult.outs])
  · intro hb hst hctx
    simp [Mine, List.length_eq_zero, hb, hst, hctx, MineResult.outs]
  · intro seed hb hst hctx hch hsel
    simp [Mine, List.length_eq_zero, hb, hst, hctx, hch, hsel, MineResult.outs]
  · intro seed ticket hb hst hctx hch hsel htk hwin
    simp [Mine, List.length_eq_zero, hb, hst, hctx, hch, hsel, htk, hwin, MineResult.outs]

/-- Witness for C1 at concrete runs on the three silent paths. -/
theorem c1_mine_output_discipline_witness :
    (Mine envCancel).outs.length ≤ 1
    ∧ (Mine envCancel).outs = []
    ∧ (Mine envSelectCancel).outs = []
    ∧ (Mine envNotWinner).outs = [] :=
  ⟨(c1_mine_output_discipline envCancel).1,
   (c1_mine_output_discipline envCancel).2.1 (by decide) rfl rfl,
   (c1_mine_output_discipline envSelectCancel).2.2.1 [1, 2] (by decide) rfl rfl rfl rfl,
   (c1_mine_output_discipline envNotWinner).2.2.2 [1, 2] [1, 2] (by decide) rfl rfl rfl rfl rfl rfl⟩

/-- C2: a `Mine` call that reaches the winner branch invokes the block
assembler and sends exactly one Output — the new block on success, the
assembly error on failure — and returns true in both cases. -/
theorem c2_winner_branch (env : MineEnv) (seed ticket : List Nat)
    (hb : env.base ≠ [])
    (hst : env.getStateTree = .ok ())
    (hctx : env.ctxErrAtCheck = false)
    (hch : env.challenge = .ok seed)
    (hsel : env.selectOutcome = .chanDelivered)
    (htk : CreateTicket seed env.minerAddr env.signer = .ok ticket)
    (hwin : env.isWinningTicket ticket = .ok true) :
    (∀ b, env.generate ticket seed = .ok b →
      Mine env = .ret true [⟨some b, none⟩])
    ∧ (∀ e, env.generate ticket seed = .error e →
      Mine env = .ret true [⟨none, some e⟩]) := by
  constructor
  · intro b hgen
    simp [Mine, List.length_eq_zero, hb, hst, hctx, hch, hsel, htk, hwin, hgen]
  · intro e hgen
    simp [Mine, List.length_eq_zero, hb, hst, hctx, hch, hsel, htk, hwin, hgen]

/-- Witness for C2 at a concrete winning run whose assembly succeeds. -/
theorem c2_winner_branch_witness :
    Mine envWinner = .ret true [⟨some blk0, none⟩] :=
  (c2_winner_branch envWinner [1, 2] [1, 2] (by decide) rfl rfl rfl rfl rfl rfl).1
    blk0 rfl

/-- C3 fails as stated: a call whose context is already cancelled at entry
(`ctx.Err()` is non-nil at the checkpoint) but whose state-tree fetch fails
sends one error Output, because the source fetches the state tree before it
checks the context. -/
theorem c3_counterexample :
    ¬ (∀ env : MineEnv, env.ctxErrAtCheck = true → env.base ≠ [] →
        Mine env = .ret false []) := by
  intro hcl
  exact absurd (hcl envC3 rfl (by decide)) (by decide)

/-- C3 amended: with an already-cancelled context and a non-empty base
tipset, provided the state-tree fetch succeeds, `Mine` returns false and
sends zero Outputs. -/
theorem c3_amended_cancelled_entry (env : MineEnv)
    (hb : env.base ≠ []) (hctx : env.ctxErrAtCheck = true)
    (hst : env.getStateTree = .ok ()) :
    Mine env = .ret false [] := by
  simp [Mine, List.length_eq_zero, hb, hst, hctx]

/-- Witness for the amended C3 at a concrete cancelled run. -/
theorem c3_amended_cancelled_entry_witness : Mine envCancel = .ret false [] :=
  c3_amended_cancelled_entry envCancel (by decide) rfl rfl

/-- C4: a `Mine` call on an empty base tipset synchronously sends exactly one
Output, whose error is non-nil and whose block is nil, and returns false. -/
theorem c4_empty_tipset (env : MineEnv) (h : env.base = []) :
    Mine env =
      .ret false [⟨none, some "bad input tipset with no blocks sent to Mine()"⟩] := by
  simp [Mine, h]

/-- Witness for C4 at a concrete run on an empty tipset. -/
theorem c4_empty_tipset_witness :
    Mine envEmpty =
      .ret false [⟨none, some "bad input tipset with no blocks sent to Mine()"⟩] :=
  c4_empty_tipset envEmpty rfl

/-- C5: when the signer fails, `CreateTicket` faults fatally (the source
panics); it never returns a ticket and never converts the failure into an
ordinary result. -/
theorem c5_sign_failure_fatal (proof : List Nat) (addr : Address)
    (signer : Signer) (e : String) (hs : signer proof addr = .error e) :
    CreateTicket proof addr signer =
      .fatal ("SignBytes error in CreateTicket: " ++ e)
    ∧ ∀ t, CreateTicket proof addr signer ≠ .ok t := by
  constructor
  · simp [CreateTicket, hs]
  · intro t
    simp [CreateTicket, hs]

/-- Witness for C5 at a concrete failing signer. -/
theorem c5_sign_failure_fatal_witness :
    CreateTicket [3, 4] ⟨[1, 7]⟩ failSigner =
      .fatal "SignBytes error in CreateTicket: corrupt key" :=
  (c5_sign_failure_fatal [3, 4] ⟨[1, 7]⟩ failSigner "corrupt key" rfl).1

/-- C6: when the signer succeeds, `CreateTicket` signs exactly the proof
bytes under the miner address and returns the signature unchanged as the
ticket; hence, for any sound verification predicate of the signer, the
ticket verifies over exactly the proof bytes. -/
theorem c6_ticket_exact_bytes (proof : List Nat) (addr : Address)
    (signer : Signer) (sig : List Nat)
    (verifies : List Nat → Address → List Nat → Prop)
    (hsound : ∀ p a t, signer p a = .ok t → verifies p a t)
    (hs : signer proof addr = .ok sig) :
    CreateTicket proof addr signer = .ok sig ∧ verifies proof addr sig :=
  ⟨by simp [CreateTicket, hs], hsound _ _ _ hs⟩

/-- Witness for C6 at a concrete succeeding signer, with verification read
off the signer itself. -/
theorem c6_ticket_exact_bytes_witness :
    CreateTicket [3, 4] ⟨[1, 7]⟩ okSigner = .ok [3, 4]
    ∧ okSigner [3, 4] ⟨[1, 7]⟩ = .ok [3, 4] :=
  c6_ticket_exact_bytes [3, 4] ⟨[1, 7]⟩ okSigner [3, 4]
    (fun p a t => okSigner p a = .ok t) (fun _ _ _ h => h) rfl

/-- C10: when the proof channel is closed without delivering a value, `Mine`
returns false and sends zero Outputs — a silent terminal outcome. -/
theorem c10_closed_proof_channel (env : MineEnv) (seed : List Nat)
    (hb : env.base ≠ [])
    (hst : env.getStateTree = .ok ())
    (hctx : env.ctxErrAtCheck = false)
    (hch : env.challenge = .ok seed)
    (hsel : env.selectOutcome = .chanClosed) :
    Mine env = .ret false [] := by
  simp [Mine, List.length_eq_zero, hb, hst, hctx, hch, hsel]

/-- Witness for C10 at a concrete run whose proof channel closes. -/
theorem c10_closed_proof_channel_witness : Mine envClosed = .ret false [] :=
  c10_closed_proof_channel envClosed [1, 2] (by decide) rfl rfl rfl rfl

/-! ### Claims about MkFakeChildCore -/

/-- Modelling of lines 77 to 80 of src/chain/testing.go: the state root used
for the child, falling back to the canonical first parent block. -/
def childStateRoot (parent : TipSet) (stateRoot : Option Nat) : Nat :=
  match stateRoot with
  | some s => s
  | none =>
    match parent with
    | [] => 0
    | b :: _ => b.stateRoot

/-- A parent tipset whose height is the largest uint64 value. -/
def parentX : TipSet := [⟨2, [], 2 ^ 64 - 1, 1, 1, 0, 4⟩]

/-- A weight function returning the pair (5, 7). -/
def wFunX : TipSet → Except String (Nat × Nat) := fun _ => .ok (5, 7)

/-- The child block `MkFakeChildCore` builds over `parentX`. -/
def blkX : Block := ⟨0, [2], 0, 5, 7, 0, 4⟩

/-- C8 fails as stated: the height addition is uint64 arithmetic, so for a
parent at height `2 ^ 64 - 1` with null-block count 0 the child's height
wraps to 0 instead of `h + 1 + n`. -/
theorem c8_counterexample :
    ¬ (∀ (parent : TipSet) (genCid : Cid) (stateRoot : Option Nat)
        (nonce n h nW dW : Nat) (wFun : TipSet → Except String (Nat × Nat))
        (blk : Block),
        h < uint64Mod → n < uint64Mod →
        tipsetHeight parent = .ok h → wFun parent = .ok (nW, dW) →
        MkFakeChildCore parent genCid stateRoot nonce n wFun = .ok blk →
        blk.height = h + 1 + n ∧ blk.parentWeightNum = nW
          ∧ blk.parentWeightDenom = dW) := by
  intro hcl
  have h := hcl parentX 0 none 0 0 (2 ^ 64 - 1) 5 7 wFunX blkX
    (by decide) (by decide) rfl rfl rfl
  exact absurd h.1 (by decide)

/-- C8 amended: the child block built by `MkFakeChildCore` over a parent of
height `h` with null-block count `n` has height `(h + 1 + n) mod 2 ^ 64` —
equal to `h + 1 + n` whenever that sum does not overflow uint64 — and
carries the weight pair returned for the parent as its parent weight. -/
theorem c8_amended_child_height_weight (parent : TipSet) (genCid : Cid)
    (stateRoot : Option Nat) (nonce n h nW dW : Nat)
    (wFun : TipSet → Except String (Nat × Nat))
    (hh : tipsetHeight parent = .ok h)
    (hw : wFun parent = .ok (nW, dW)) :
    MkFakeChildCore parent genCid stateRoot nonce n wFun =
      .ok { cid := 0
            parents := toSortedCidSet parent
            height := (h + 1 + n) % uint64Mod
            parentWeightNum := nW
            parentWeightDenom := dW
            nonce := nonce
            stateRoot := childStateRoot parent stateRoot }
    ∧ (h + 1 + n < uint64Mod → (h + 1 + n) % uint64Mod = h + 1 + n) := by
  constructor
  · unfold MkFakeChildCore
    rw [hw, hh]
    rfl
  · exact fun hlt => Nat.mod_eq_of_lt hlt

/-- A weight function returning the pair (3, 2). -/
def wFunW : TipSet → Except String (Nat × Nat) := fun _ => .ok (3, 2)

/-- Witness for the amended C8: the spec scenario itself, a parent at height
5 with null-block count 2 giving a child at height 8 carrying the parent
weight. -/
theorem c8_amended_child_height_weight_witness :
    MkFakeChildCore [blk0] 0 none 0 2 wFunW = .ok ⟨0, [1], 8, 3, 2, 0, 9⟩ :=
  (c8_amended_child_height_weight [blk0] 0 none 0 2 5 3 2 wFunW rfl rfl).1

/-! ### Address encoding (src/chain/testing.go, address package part)

Go strings are byte strings; they are embedded as `List Nat` of byte values
(`'t' = 116`, `'f' = 102`, `'0' = 48`).  The blake2b checksum, the base32
codec, and the leb128 codec are external collaborators of this file's code
and are injected through an environment, with their contracts appearing as
hypotheses of the round-trip theorem. -/

/-- Embedding of the `ID` protocol constant. -/
def ID : Nat := 0

/-- Embedding of the `SECP256K1` protocol constant. -/
def SECP256K1 : Nat := 1

/-- Embedding of the `Actor` protocol constant. -/
def Actor : Nat := 2

/-- Embedding of the `BLS` protocol constant. -/
def BLS : Nat := 3

/-- Embedding of the `Mainnet` network constant. -/
def Mainnet : Nat := 0

/-- Embedding of the `Testnet` network constant. -/
def Testnet : Nat := 1

/-- Embedding of `PayloadHashLength`.  The constants file is outside the
excerpt, but `decode` hardcodes a 20-byte payload check for the secp256k1
and actor protocols, which pins the value. -/
def PayloadHashLength : Nat := 20

/-- Embedding of `ChecksumHashLength`.  The constants file is outside the
excerpt, but the address format comment in the source fixes the checksum at
4 bytes. -/
def ChecksumHashLength : Nat := 4

/-- Byte of a decimal digit, as `fmt.Sprintf` and `strconv` use them. -/
def digitByte (d : Nat) : Nat := 48 + d

/-- Fuel-driven most-significant-first decimal digits of a positive number;
the fuel only forces structural termination and is set to the number. -/
def uintToDecAux : Nat → Nat → List Nat
  | 0, _ => []
  | _ + 1, 0 => []
  | fuel + 1, n + 1 =>
    uintToDecAux fuel ((n + 1) / 10) ++ [digitByte ((n + 1) % 10)]

/-- Embedding of `fmt.Sprintf` with a decimal verb on a uint64: the decimal
byte string of the number. -/
def uintToDec (n : Nat) : List Nat :=
  if n = 0 then [48] else uintToDecAux n n

/-- Decimal digit value of a byte, if it is a digit byte. -/
def parseDigit (b : Nat) : Option Nat :=
  if 48 ≤ b ∧ b ≤ 57 then some (b - 48) else none

/-- Accumulator loop of `strconv.ParseUint` in base 10 with 64-bit range:
reject non-digits and any prefix value exceeding the uint64 range. -/
def parseUintAux : List Nat → Nat → Option Nat
  | [], acc => some acc
  | b :: bs, acc =>
    match parseDigit b with
    | none => none
    | some d =>
      let v := acc * 10 + d
      if uint64Mod ≤ v then none else parseUintAux bs v

/-- Embedding of `strconv.ParseUint(s, 10, 64)`: fails on the empty string,
on a non-digit byte, and on uint64 overflow. -/
def parseUint (s : List Nat) : Option Nat :=
  if s = [] then none else parseUintAux s 0

/-- A step of most-significant-first decimal accumulation never decreases
the accumulator. -/
theorem le_foldl_decStep (l : List Nat) (a : Nat) :
    a ≤ l.foldl (fun x d => x * 10 + d) a := by
  induction l generalizing a with
  | nil => exact Nat.le_refl a
  | cons d tl ih => exact le_trans (by omega) (ih (a * 10 + d))

/-- `parseUintAux` recomputes the decimal accumulation of a digit list when
the final value is in uint64 range. -/
theorem parseUintAux_digits (l : List Nat) (a : Nat)
    (hd : ∀ d ∈ l, d < 10)
    (hlt : l.foldl (fun x d => x * 10 + d) a < uint64Mod) :
    parseUintAux (l.map digitByte) a =
      some (l.foldl (fun x d => x * 10 + d) a) := by
  induction l generalizing a with
  | nil => simp [parseUintAux]
  | cons d tl ih =>
    have hd0 : d < 10 := hd d (by simp)
    have hdig : parseDigit (digitByte d) = some d := by
      simp only [parseDigit, digitByte]
      rw [if_pos (by omega)]
      congr 1
      omega
    have hmono : a * 10 + d ≤ tl.foldl (fun x d => x * 10 + d) (a * 10 + d) :=
      le_foldl_decStep tl (a * 10 + d)
    simp only [List.foldl_cons] at hlt ⊢
    simp only [List.map_cons, parseUintAux, hdig]
    rw [if_neg (by omega)]
    exact ih (a * 10 + d) (fun x hx => hd x (by simp [hx])) hlt

/-- Most-significant-first decimal accumulation over the reversed digit list
computes the number the digits denote. -/
theorem foldl_decStep_reverse (L : List Nat) (a : Nat) :
    (L.reverse).foldl (fun x d => x * 10 + d) a =
      a * 10 ^ L.length + Nat.ofDigits 10 L := by
  induction L generalizing a with
  | nil => simp
  | cons d tl ih =>
    rw [List.reverse_cons, List.foldl_append]
    simp only [List.foldl_cons, List.foldl_nil, ih, Nat.ofDigits_cons,
      List.length_cons]
    ring

/-- `uintToDecAux` with enough fuel produces the decimal digit bytes, most
significant first. -/
theorem uintToDecAux_eq (fuel : Nat) : ∀ n : Nat, n ≤ fuel →
    uintToDecAux fuel n = ((Nat.digits 10 n).reverse).map digitByte := by
  induction fuel with
  | zero =>
    intro n hn
    interval_cases n
    simp [uintToDecAux]
  | succ f ih =>
    intro n hn
    match n with
    | 0 => simp [uintToDecAux]
    | m + 1 =>
      have hdiv : (m + 1) / 10 ≤ f := by
        have := Nat.div_lt_self (Nat.succ_pos m) (by norm_num : 1 < 10)
        omega
      rw [uintToDecAux, ih ((m + 1) / 10) hdiv,
        Nat.digits_def' (by norm_num : 1 < 10) (Nat.succ_pos m)]
      simp

/-- Decimal round-trip: parsing the printed decimal of a uint64-ranged
number recovers the number. -/
theorem parseUint_uintToDec (n : Nat) (h : n < uint64Mod) :
    parseUint (uintToDec n) = some n := by
  by_cases h0 : n = 0
  · subst h0
    decide
  · have hne : Nat.digits 10 n ≠ [] := Nat.digits_ne_nil_iff_ne_zero.2 h0
    have hrep : uintToDec n = ((Nat.digits 10 n).reverse).map digitByte := by
      rw [uintToDec, if_neg h0]
      exact uintToDecAux_eq n n (Nat.le_refl n)
    have hfold : (Nat.digits 10 n).reverse.foldl (fun x d => x * 10 + d) 0 = n := by
      rw [foldl_decStep_reverse]
      simp [Nat.ofDigits_digits]
    rw [hrep, parseUint, if_neg (by simp [hne])]
    rw [parseUintAux_digits]
    · rw [hfold]
    · intro d hdm
      exact Nat.digits_lt_base (by norm_num) (List.mem_reverse.1 hdm)
    · rw [hfold]
      exact h

/-- Collaborators the address code consumes: the blake2b-based checksum, the
base32 codec behind `AddressEncoding.WithPadding(-1)`, the leb128 codec, and
the constants whose defining file is outside the excerpt. -/
structure AddrEnv where
  checksum : List Nat → List Nat
  b32encode : List Nat → List Nat
  b32decode : List Nat → Option (List Nat)
  leb128from : Nat → List Nat
  leb128to : List Nat → Nat
  blsPublicKeyBytes : Nat
  maxAddressStringLength : Nat
  emptyAddressString : List Nat

/-- Embedding of `Address.Protocol()`: the first byte of the backing
string (the source indexes it unconditionally; `Undef` is handled by the
callers before reaching it). -/
def addrProtocol (a : Address) : Nat := a.str.headI

/-- Embedding of `Address.Payload()`: the bytes after the protocol byte. -/
def addrPayload (a : Address) : List Nat := a.str.tail

/-- Embedding of `newAddress`: validates the payload length per protocol and
builds the protocol-byte-plus-payload backing string. -/
def newAddress (env : AddrEnv) (protocol : Nat) (payload : List Nat) :
    Except String Address :=
  if protocol = ID then .ok ⟨protocol :: payload⟩
  else if protocol = SECP256K1 ∨ protocol = Actor then
    if payload.length = PayloadHashLength then .ok ⟨protocol :: payload⟩
    else .error "invalid address payload"
  else if protocol = BLS then
    if payload.length = env.blsPublicKeyBytes then .ok ⟨protocol :: payload⟩
    else .error "invalid address payload"
  else .error "unknown address protocol"

/-- Embedding of `ValidateChecksum`: byte equality of the recomputed and the
stored checksum. -/
def validateChecksum (env : AddrEnv) (ingest expect : List Nat) : Bool :=
  env.checksum ingest == expect

/-- Embedding of `encode`: network prefix byte, decimal protocol digit, then
either the base32 of payload-plus-checksum (secp256k1, actor, BLS) or the
decimal of the leb128-decoded id (ID protocol). -/
def encode (env : AddrEnv) (network : Nat) (addr : Address) :
    Except String (List Nat) :=
  if addr = Undef then .ok env.emptyAddressString
  else
    match (if network = Mainnet then some [102]
           else if network = Testnet then some [116]
           else none : Option (List Nat)) with
    | none => .error "unknown address network"
    | some ntwk =>
      if addrProtocol addr = SECP256K1 ∨ addrProtocol addr = Actor
          ∨ addrProtocol addr = BLS then
        let cksm := env.checksum (addrProtocol addr :: addrPayload addr)
        .ok (ntwk ++ uintToDec (addrProtocol addr)
          ++ env.b32encode (addrPayload addr ++ cksm))
      else if addrProtocol addr = ID then
        .ok (ntwk ++ uintToDec (addrProtocol addr)
          ++ uintToDec (env.leb128to (addrPayload addr)))
      else .error "unknown address protocol"

/-- Embedding of `Address.String()`: encode on the test network.  The source
panics if encode fails, which no well-formed address reaches. -/
def addrString (env : AddrEnv) (a : Address) : List Nat :=
  match encode env Testnet a with
  | .ok s => s
  | .error _ => []

/-- Protocol selected by the protocol digit byte in `decode`. -/
def protocolOfDigit (b : Nat) : Option Nat :=
  if b = 48 then some ID
  else if b = 49 then some SECP256K1
  else if b = 50 then some Actor
  else if b = 51 then some BLS
  else none

/-- Body of `decode` past its emptiness and length guards, on the network
byte `b0`, the protocol digit byte `b1` and the remaining bytes `raw`:
network check, protocol digit dispatch, decimal-plus-leb128 parsing for ID,
and base32, checksum split, payload length and checksum validation for the
other protocols, reconstructing through `newAddress`. -/
def decodeBody (env : AddrEnv) (b0 b1 : Nat) (raw : List Nat) :
    Except String Address :=
  if b0 ≠ 102 ∧ b0 ≠ 116 then .error "unknown address network"
  else
    match protocolOfDigit b1 with
    | none => .error "unknown address protocol"
    | some protocol =>
      if protocol = ID then
        match parseUint raw with
        | none => .error "invalid address payload"
        | some i => newAddress env protocol (env.leb128from i)
      else
        match env.b32decode raw with
        | none => .error "base32 decode failure"
        | some payloadcksm =>
          let payload := payloadcksm.take (payloadcksm.length - ChecksumHashLength)
          let cksm := payloadcksm.drop (payloadcksm.length - ChecksumHashLength)
          if (protocol = SECP256K1 ∨ protocol = Actor) ∧ payload.length ≠ 20 then
            .error "invalid address payload"
          else if !validateChecksum env (protocol :: payload) cksm then
            .error "invalid address checksum"
          else newAddress env protocol payload

/-- Embedding of `decode`: empty and sentinel strings give `Undef`, the
length window is checked, and the rest is `decodeBody` on the network byte,
the protocol digit and the remaining bytes. -/
def decode (env : AddrEnv) (a : List Nat) : Except String Address :=
  if a = [] then .ok Undef
  else if a = env.emptyAddressString then .ok Undef
  else if a.length > env.maxAddressStringLength ∨ a.length < 3 then
    .error "invalid address length"
  else
    match a with
    | b0 :: b1 :: raw => decodeBody env b0 b1 raw
    | _ => .error "invalid address length"

/-- Well-formed addresses per C9: built over one of the four protocols with
a payload `newAddress` accepts; for the ID protocol, a canonical leb128
payload of a uint64 id (what `NewIDAddress` produces), with the injected
leb128 codec round-tripping on it. -/
inductive WellFormedAddress (env : AddrEnv) : Address → Prop where
  | id (i : Nat) (hlt : i < uint64Mod)
      (hleb : env.leb128to (env.leb128from i) = i) :
      WellFormedAddress env ⟨ID :: env.leb128from i⟩
  | secp (payload : List Nat) (hlen : payload.length = PayloadHashLength) :
      WellFormedAddress env ⟨SECP256K1 :: payload⟩
  | actor (payload : List Nat) (hlen : payload.length = PayloadHashLength) :
      WellFormedAddress env ⟨Actor :: payload⟩
  | bls (payload : List Nat) (hlen : payload.length = env.blsPublicKeyBytes) :
      WellFormedAddress env ⟨BLS :: payload⟩

/-- A string of at least three bytes that is neither empty nor the sentinel
and fits the length window reaches `decodeBody`. -/
theorem decode_cons (env : AddrEnv) (b0 b1 : Nat) (raw : List Nat)
    (hempty : b0 :: b1 :: raw ≠ env.emptyAddressString)
    (hmax : (b0 :: b1 :: raw).length ≤ env.maxAddressStringLength)
    (hmin : 3 ≤ (b0 :: b1 :: raw).length) :
    decode env (b0 :: b1 :: raw) = decodeBody env b0 b1 raw := by
  unfold decode
  rw [if_neg (by simp), if_neg hempty, if_neg (by push_neg; exact ⟨hmax, hmin⟩)]

/-- `decodeBody` inverts the non-ID arm of `encode` whenever the injected
base32 codec round-trips on the payload-plus-checksum bytes and the checksum
has its stated length. -/
theorem decodeBody_nonID (env : AddrEnv) (p : Nat) (payload : List Nat)
    (hp : p = SECP256K1 ∨ p = Actor ∨ p = BLS)
    (hb32 : env.b32decode (env.b32encode (payload ++ env.checksum (p :: payload)))
      = some (payload ++ env.checksum (p :: payload)))
    (hck : (env.checksum (p :: payload)).length = ChecksumHashLength)
    (hnew : newAddress env p payload = .ok ⟨p :: payload⟩) :
    decodeBody env 116 (48 + p)
      (env.b32encode (payload ++ env.checksum (p :: payload))) =
      .ok ⟨p :: payload⟩ := by
  rcases hp with rfl | rfl | rfl
  · have hl : payload.length = PayloadHashLength := by
      by_contra hl
      simp [newAddress, SECP256K1, ID, Actor, BLS, hl] at hnew
    simp only [SECP256K1, ID, Actor, BLS, PayloadHashLength, ChecksumHashLength]
      at hb32 hck hnew hl ⊢
    have htakeP : List.take payload.length
        (payload ++ env.checksum (1 :: payload)) = payload :=
      List.take_left payload _
    have hdropP : List.drop payload.length
        (payload ++ env.checksum (1 :: payload)) = env.checksum (1 :: payload) :=
      List.drop_left payload _
    simp [decodeBody, protocolOfDigit, SECP256K1, ID, Actor, BLS,
      ChecksumHashLength, hb32, hck, htakeP, hdropP, validateChecksum, hnew]
    simp [hl]
  · have hl : payload.length = PayloadHashLength := by
      by_contra hl
      simp [newAddress, SECP256K1, ID, Actor, BLS, hl] at hnew
    simp only [SECP256K1, ID, Actor, BLS, PayloadHashLength, ChecksumHashLength]
      at hb32 hck hnew hl ⊢
    have htakeP : List.take payload.length
        (payload ++ env.checksum (2 :: payload)) = payload :=
      List.take_left payload _
    have hdropP : List.drop payload.length
        (payload ++ env.checksum (2 :: payload)) = env.checksum (2 :: payload) :=
      List.drop_left payload _
    simp [decodeBody, protocolOfDigit, SECP256K1, ID, Actor, BLS,
      ChecksumHashLength, hb32, hck, htakeP, hdropP, validateChecksum, hnew]
    simp [hl]
  · simp only [SECP256K1, ID, Actor, BLS, ChecksumHashLength]
      at hb32 hck hnew ⊢
    have htakeP : List.take payload.length
        (payload ++ env.checksum (3 :: payload)) = payload :=
      List.take_left payload _
    have hdropP : List.drop payload.length
        (payload ++ env.checksum (3 :: payload)) = env.checksum (3 :: payload) :=
      List.drop_left payload _
    simp [decodeBody, protocolOfDigit, SECP256K1, ID, Actor, BLS,
      ChecksumHashLength, hb32, hck, htakeP, hdropP, validateChecksum, hnew]

/-- C9: the checksummed string encoding round-trips — decoding the string an
address prints to recovers the address byte for byte, for every well-formed
address over the ID, secp256k1, actor and BLS protocols, given the injected
codec collaborators behave as their contracts state on this address's data
(base32 round-trip, fixed checksum length, string within the length window
and distinct from the sentinel). -/
theorem c9_address_string_roundtrip (env : AddrEnv) (a : Address)
    (hwf : WellFormedAddress env a)
    (hb32 : env.b32decode (env.b32encode
        (addrPayload a ++ env.checksum (addrProtocol a :: addrPayload a)))
      = some (addrPayload a ++ env.checksum (addrProtocol a :: addrPayload a)))
    (hck : (env.checksum (addrProtocol a :: addrPayload a)).length
      = ChecksumHashLength)
    (hmin : 3 ≤ (addrString env a).length)
    (hmax : (addrString env a).length ≤ env.maxAddressStringLength)
    (hempty : addrString env a ≠ env.emptyAddressString) :
    decode env (addrString env a) = .ok a := by
  cases hwf with
  | id i hlt hleb =>
    have hs : addrString env ⟨ID :: env.leb128from i⟩ =
        116 :: 48 :: uintToDec (env.leb128to (env.leb128from i)) := rfl
    rw [hleb] at hs
    rw [hs] at hmin hmax hempty ⊢
    rw [decode_cons env 116 48 _ hempty hmax hmin]
    have hparse := parseUint_uintToDec i hlt
    simp [decodeBody, protocolOfDigit, ID, hparse, newAddress]
  | secp payload hlen =>
    have hs : addrString env ⟨SECP256K1 :: payload⟩ =
        116 :: 49 :: env.b32encode
          (payload ++ env.checksum (SECP256K1 :: payload)) := rfl
    rw [hs] at hmin hmax hempty ⊢
    have hb32' : env.b32decode (env.b32encode
        (payload ++ env.checksum (SECP256K1 :: payload)))
        = some (payload ++ env.checksum (SECP256K1 :: payload)) := hb32
    have hck' : (env.checksum (SECP256K1 :: payload)).length
        = ChecksumHashLength := hck
    have hnew : newAddress env SECP256K1 payload = .ok ⟨SECP256K1 :: payload⟩ := by
      simp [newAddress, SECP256K1, ID, Actor, hlen]
    rw [decode_cons env 116 49 _ hempty hmax hmin]
    exact decodeBody_nonID env SECP256K1 payload (Or.inl rfl) hb32' hck' hnew
  | actor payload hlen =>
    have hs : addrString env ⟨Actor :: payload⟩ =
        116 :: 50 :: env.b32encode
          (payload ++ env.checksum (Actor :: payload)) := rfl
    rw [hs] at hmin hmax hempty ⊢
    have hb32' : env.b32decode (env.b32encode
        (payload ++ env.checksum (Actor :: payload)))
        = some (payload ++ env.checksum (Actor :: payload)) := hb32
    have hck' : (env.checksum (Actor :: payload)).length
        = ChecksumHashLength := hck
    have hnew : newAddress env Actor payload = .ok ⟨Actor :: payload⟩ := by
      simp [newAddress, Actor, ID, SECP256K1, hlen]
    rw [decode_cons env 116 50 _ hempty hmax hmin]
    exact decodeBody_nonID env Actor payload (Or.inr (Or.inl rfl)) hb32' hck' hnew
  | bls payload hlen =>
    have hs : addrString env ⟨BLS :: payload⟩ =
        116 :: 51 :: env.b32encode
          (payload ++ env.checksum (BLS :: payload)) := rfl
    rw [hs] at hmin hmax hempty ⊢
    have hb32' : env.b32decode (env.b32encode
        (payload ++ env.checksum (BLS :: payload)))
        = some (payload ++ env.checksum (BLS :: payload)) := hb32
    have hck' : (env.checksum (BLS :: payload)).length
        = ChecksumHashLength := hck
    have hnew : newAddress env BLS payload = .ok ⟨BLS :: payload⟩ := by
      simp [newAddress, BLS, ID, SECP256K1, Actor, hlen]
    rw [decode_cons env 116 51 _ hempty hmax hmin]
    exact decodeBody_nonID env BLS payload (Or.inr (Or.inr rfl)) hb32' hck' hnew

/-- Concrete collaborators for the round-trip witness: identity base32, a
constant 4-byte checksum, single-byte leb128, and a wide length window. -/
def env0Addr : AddrEnv :=
  { checksum := fun _ => [9, 9, 9, 9]
    b32encode := fun bs => bs
    b32decode := fun bs => some bs
    leb128from := fun n => [n % 128]
    leb128to := fun bs => bs.headI
    blsPublicKeyBytes := 48
    maxAddressStringLength := 1000
    emptyAddressString := [] }

/-- A concrete well-formed secp256k1 address. -/
def addr0 : Address := ⟨SECP256K1 :: List.replicate 20 7⟩

/-- Witness for C9 at a concrete secp256k1 address under the concrete
collaborators. -/
theorem c9_address_string_roundtrip_witness :
    decode env0Addr (addrString env0Addr addr0) = .ok addr0 :=
  c9_address_string_roundtrip env0Addr addr0
    (WellFormedAddress.secp (List.replicate 20 7) (by decide))
    rfl rfl (by decide) (by decide) (by decide)
